import Mathlib

/-!
Verification development for the sonar sampler repository
(src/py/sonar.py and src/py/noise.py).

The embedding below models:
  - Python call binding for the specific call sites the claims are about
    (positional-argument counts and keyword names checked against the
    callee's parameter list; a mismatch is a `TypeError`);
  - latent tensors as rank-4 nested lists of rationals
    (batch x channel x height x width), with elementwise arithmetic,
    per-batch statistics, `torch.flip` and `torch.roll`;
  - the momentum integrator, the Euler step/sampler loop, the guidance
    mixin, and the noise combinators (`CustomNoiseChain`, `RepeatedNoise`,
    `GuidedNoise`) that the claims mention.

Floating-point arithmetic is modelled by exact rational arithmetic; the
float constant `2**0.5` is embedded as the exact value of its IEEE-754
double representation.  The square root used by `torch.std` (and by the
spec-modelled `scale_noise`) is an abstract parameter `sqrtQ`; no theorem
below depends on its values.
-/

/-- Python exception kinds that the modelled code can raise. -/
inductive PyErr where
  | typeError
  | valueError
  | zeroDivisionError
  | indexError
  | runtimeError
  deriving DecidableEq, Repr

/-- Minimal model of Python call binding for the call sites under study:
`params` is the callee's parameter list (in order), `nPos` the number of
positional arguments supplied, and `kwargs` the keyword names supplied.
Supplying more positional arguments than there are parameters, or a keyword
that does not name a parameter left unbound by the positional arguments, is
a `TypeError` (the callees modelled here have no `*args`/`**kwargs`). -/
def bindCall (params : List String) (nPos : Nat) (kwargs : List String) :
    Except PyErr Unit :=
  if params.length < nPos then .error .typeError
  else if kwargs.all (fun k => (params.drop nPos).contains k) then .ok ()
  else .error .typeError

/-- Parameter list of `get_noise_sampler` (src/py/noise.py:750-759):
`(noise_type, x, sigma_min, sigma_max, seed=None, cpu=True, factor=1.0,
normalized=False)`. -/
def get_noise_sampler_params : List String :=
  ["noise_type", "x", "sigma_min", "sigma_max", "seed", "cpu", "factor",
   "normalized"]

/-- The bind phase of `SonarEulerAncestral.sampler` (src/py/sonar.py:261-274),
up to and including the `noise.get_noise_sampler(...)` call; everything after
that call (object construction and the sampling loop) is unreachable when the
call fails.  `has_noise_sampler` records whether an explicit `noise_sampler`
argument was supplied.  `sigmas[sigmas > 0].min()` on a tensor with no
positive entry raises a `RuntimeError`; otherwise the call site passes four
positional arguments plus keywords `seed` and `use_cpu`. -/
def sonarEulerAncestralBind (noise_type : String) (has_noise_sampler : Bool)
    (sigmas : List ℚ) : Except PyErr Unit :=
  if noise_type ≠ "gaussian" ∧ has_noise_sampler then .error .valueError
  else if sigmas.filter (fun s => decide (0 < s)) = [] then .error .runtimeError
  else bindCall get_noise_sampler_params 4 ["seed", "use_cpu"]

/-- The bind phase of `SonarNaive.sampler` (src/py/sonar.py:443-456), which is
line for line the same as `SonarEulerAncestral.sampler`'s up to the
`noise.get_noise_sampler(...)` call (the guidance arguments are only used
after it). -/
def sonarNaiveBind (noise_type : String) (has_noise_sampler : Bool)
    (sigmas : List ℚ) : Except PyErr Unit :=
  if noise_type ≠ "gaussian" ∧ has_noise_sampler then .error .valueError
  else if sigmas.filter (fun s => decide (0 < s)) = [] then .error .runtimeError
  else bindCall get_noise_sampler_params 4 ["seed", "use_cpu"]

/-- C1: for every input with no explicit noise sampler (and a sigma schedule
with at least one positive entry, so that `sigmas[sigmas > 0].min()`
succeeds), the bind phase of both `SonarEulerAncestral.sampler` and
`SonarNaive.sampler` raises a `TypeError`, because both call
`noise.get_noise_sampler` with the keyword argument `use_cpu`, which is not
among `get_noise_sampler`'s parameters (the signature takes `cpu`); hence
neither ancestral sampler ever executes a sampling step. -/
theorem ancestral_bind_use_cpu_type_error (noise_type : String)
    (sigmas : List ℚ) (hpos : sigmas.filter (fun s => decide (0 < s)) ≠ []) :
    sonarEulerAncestralBind noise_type false sigmas = .error .typeError ∧
    sonarNaiveBind noise_type false sigmas = .error .typeError := by
  constructor <;>
    simp [sonarEulerAncestralBind, sonarNaiveBind, hpos, bindCall,
      get_noise_sampler_params]

/-- Witness for `ancestral_bind_use_cpu_type_error` at the default noise type
and the schedule `[1.0, 0.5, 0.0]`. -/
theorem ancestral_bind_use_cpu_type_error_witness :
    ([1, 1/2, 0] : List ℚ).filter (fun s => decide (0 < s)) ≠ [] ∧
    sonarEulerAncestralBind "gaussian" false [1, 1/2, 0] = .error .typeError := by
  refine ⟨by decide, ?_⟩
  exact (ancestral_bind_use_cpu_type_error "gaussian" [1, 1/2, 0]
    (by decide)).1

/-! ## Tensor model

Latent tensors are rank-4 nested lists of rationals, indexed
batch x channel x height x width, matching the 4-D latents the code
operates on. -/

/-- Innermost tensor level: a row of rationals (the W dimension). -/
abbrev T1 := List ℚ

/-- Rank-2 level (H x W). -/
abbrev T2 := List T1

/-- Rank-3 level (C x H x W): one batch element. -/
abbrev T3 := List T2

/-- A rank-4 latent tensor (B x C x H x W). -/
abbrev Tensor := List T3

/-- Elementwise map over a rank-4 tensor. -/
def T4.map (f : ℚ → ℚ) (t : Tensor) : Tensor :=
  t.map (fun a => a.map (fun b => b.map (fun c => c.map f)))

/-- Elementwise zip of two rank-4 tensors of the same shape. -/
def T4.zip (f : ℚ → ℚ → ℚ) (t u : Tensor) : Tensor :=
  List.zipWith
    (fun a a' => List.zipWith
      (fun b b' => List.zipWith
        (fun c c' => List.zipWith f c c') b b') a a') t u

/-- Elementwise map over one batch element. -/
def T3.map (f : ℚ → ℚ) (b : T3) : T3 :=
  List.map (fun c => List.map (fun r => List.map f r) c) b

/-- Elementwise zip of two batch elements of the same shape. -/
def T3.zip (f : ℚ → ℚ → ℚ) (b b' : T3) : T3 :=
  List.zipWith (fun c c' => List.zipWith
    (fun r r' => List.zipWith f r r') c c') b b'

/-- All scalars of one batch element, flattened. -/
def T3.flat (b : T3) : List ℚ := (List.map List.flatten b).flatten

/-- Mean of a list of rationals (0 on the empty list, as a convention;
the code never takes the mean of an empty tensor). -/
def listMean (l : List ℚ) : ℚ := l.sum / l.length

/-- Unbiased variance of a list of rationals, as used by `torch.std`
(division by `n - 1`). -/
def listVar (l : List ℚ) : ℚ :=
  (l.map (fun v => (v - listMean l) ^ 2)).sum / ((l.length : ℚ) - 1)

/-- Zip helper: zipping two maps of the same list is a map. -/
theorem zipWith_map_same {α β γ δ : Type} (f : β → γ → δ) (g : α → β)
    (h : α → γ) : ∀ l : List α,
    List.zipWith f (l.map g) (l.map h) = l.map (fun v => f (g v) (h v))
  | [] => rfl
  | a :: l => by
    simp [zipWith_map_same f g h l]

/-- Zip helper: zipping a list with a map of itself is a map. -/
theorem zipWith_left_map {α γ δ : Type} (f : α → γ → δ) (h : α → γ) :
    ∀ l : List α,
    List.zipWith f l (l.map h) = l.map (fun v => f v (h v))
  | [] => rfl
  | a :: l => by
    simp [zipWith_left_map f h l]

/-- Rank-4 version of `zipWith_map_same`. -/
theorem t4_zip_map_same (f : ℚ → ℚ → ℚ) (g h : ℚ → ℚ) (t : Tensor) :
    T4.zip f (T4.map g t) (T4.map h t) = T4.map (fun v => f (g v) (h v)) t := by
  simp only [T4.zip, T4.map, zipWith_map_same]

/-- Rank-4 version of `zipWith_left_map`. -/
theorem t4_zip_left_map (f : ℚ → ℚ → ℚ) (h : ℚ → ℚ) (t : Tensor) :
    T4.zip f t (T4.map h t) = T4.map (fun v => f v (h v)) t := by
  simp only [T4.zip, T4.map, zipWith_left_map]

/-- Composition of elementwise maps. -/
theorem t4_map_map (f g : ℚ → ℚ) (t : Tensor) :
    T4.map f (T4.map g t) = T4.map (fun v => f (g v)) t := by
  simp [T4.map, List.map_map, Function.comp]

/-- Pointwise-equal functions give equal elementwise maps. -/
theorem t4_map_congr {f g : ℚ → ℚ} (hfg : ∀ v, f v = g v) (t : Tensor) :
    T4.map f t = T4.map g t := by
  rw [funext hfg]

/-! ## scale_noise (spec-modelled) -/

/-- Modelled from the spec: `scale_noise` is defined in the repository's
`noise_generation` module, which is not under src/ (src/py/noise.py imports it
with `from .noise_generation import *`).  Per spec section 4.1 and the glossary:
if `normalized`, the raw tensor is rescaled to unit per-sample (per batch
element) standard deviation and then multiplied by `factor`; otherwise it is
multiplied by `factor` directly.  `sqrtQ` is the abstract square root used for
the standard deviation. -/
def scale_noise (sqrtQ : ℚ → ℚ) (t : Tensor) (factor : ℚ)
    (normalized : Bool) : Tensor :=
  if normalized then
    List.map (fun b =>
      let std := sqrtQ (listVar (T3.flat b))
      T3.map (fun v => v / std * factor) b) t
  else T4.map (fun v => v * factor) t

/-! ## CustomNoiseChain (src/py/noise.py:73-98) -/

/-- A leaf noise item of a chain.  `CustomNoiseItemBase` carries `factor`
plus an arbitrary bag of per-noise-type keyword parameters; only `factor` is
read or written by `CustomNoiseChain.factor` / `rescaled` / `set_factor`
(`clone` copies the other parameters unchanged), so items are modelled by
their factor. -/
structure CustomNoiseItem where
  factor : ℚ
  deriving DecidableEq, Repr

/-- The derived `factor` property of `CustomNoiseChain`
(src/py/noise.py:87-89): `sum(abs(i.factor) for i in self.items)`. -/
def chainFactor (items : List CustomNoiseItem) : ℚ :=
  (items.map (fun i => |i.factor|)).sum

/-- `CustomNoiseChain.rescaled` (src/py/noise.py:91-98).  Python float
division by `scale == 0.0` raises `ZeroDivisionError`; otherwise
`divisor = self.factor / scale`, a zero divisor is forced to `1.0`, the chain
is cloned, and when `divisor != 1` every child's factor is divided by it. -/
def rescaled (items : List CustomNoiseItem) (scale : ℚ) :
    Except PyErr (List CustomNoiseItem) :=
  if scale = 0 then .error .zeroDivisionError
  else
    let divisor := chainFactor items / scale
    let divisor := if divisor ≠ 0 then divisor else 1
    if divisor ≠ 1 then .ok (items.map (fun i => ⟨i.factor / divisor⟩))
    else .ok items

/-- Counterexample to C10 as stated: `rescaled` with the negative target
scale `s = -1` on a chain with a single child of factor `1` yields a chain
whose factor is `1`, not `-1`: the rescaled chain's factor is `|s|`, never
negative, so it does not equal the target for negative targets. -/
theorem chain_rescaled_neg_target_cex :
    rescaled [⟨1⟩] (-1) = .ok [⟨-1⟩] ∧
    chainFactor [⟨-1⟩] = 1 ∧ ((1 : ℚ) ≠ -1) := by
  refine ⟨?_, by norm_num [chainFactor], by norm_num⟩
  norm_num [rescaled, chainFactor]

/-- Sum of a constant right multiple. -/
theorem sum_map_mul_const {α : Type} (l : List α) (f : α → ℚ) (c : ℚ) :
    (l.map (fun x => f x * c)).sum = (l.map f).sum * c := by
  induction l with
  | nil => simp
  | cons a l ih => simp [ih, add_mul]

/-- The chain factor is a sum of absolute values, hence nonnegative. -/
theorem chainFactor_nonneg (items : List CustomNoiseItem) :
    0 ≤ chainFactor items := by
  refine List.sum_nonneg ?_
  intro x hx
  obtain ⟨i, _, rfl⟩ := List.mem_map.mp hx
  exact abs_nonneg _

/-- C10 (amended): for every chain, `chain.factor` is the sum of the
children's absolute factors; for every positive target scale `s`,
`rescaled(s)` divides every child's factor by `chain.factor / s`, so the
resulting chain's factor equals `s` exactly (ratios between children are
preserved since all factors are divided by the same divisor), and when
`chain.factor == 0` the zero divisor is forced to `1` and the rescale is a
no-op. -/
theorem chain_rescaled_pos_target (items : List CustomNoiseItem) (s : ℚ)
    (hs : 0 < s) :
    chainFactor items = (items.map (fun i => |i.factor|)).sum ∧
    (chainFactor items = 0 → rescaled items s = .ok items) ∧
    (chainFactor items ≠ 0 →
      ∃ out, rescaled items s = .ok out ∧ chainFactor out = s ∧
        out = items.map
          (fun i => ⟨i.factor / (chainFactor items / s)⟩)) := by
  have hs0 : s ≠ 0 := ne_of_gt hs
  refine ⟨rfl, ?_, ?_⟩
  · intro h0
    simp [rescaled, hs0, h0]
  · intro hF
    have hFpos : 0 < chainFactor items :=
      lt_of_le_of_ne (chainFactor_nonneg items) (Ne.symm hF)
    have hdpos : 0 < chainFactor items / s := div_pos hFpos hs
    have hd0 : chainFactor items / s ≠ 0 := ne_of_gt hdpos
    by_cases hd1 : chainFactor items / s = 1
    · refine ⟨items, ?_, ?_, ?_⟩
      · simp [rescaled, hs0, hd0, hd1]
      · have : chainFactor items = s := by
          have := hd1
          field_simp at this
          exact this
        exact this
      · rw [hd1]
        simp
    · refine ⟨items.map (fun i => ⟨i.factor / (chainFactor items / s)⟩),
        ?_, ?_, rfl⟩
      · simp only [rescaled, hs0, if_neg hs0]
        simp [hd0, hd1]
      · have habs : ∀ i : CustomNoiseItem,
            |i.factor / (chainFactor items / s)| =
              |i.factor| * (chainFactor items / s)⁻¹ := by
          intro i
          rw [div_eq_mul_inv, abs_mul, abs_inv, abs_of_pos hdpos]
        simp only [chainFactor, List.map_map, Function.comp]
        calc (items.map
                (fun i => |i.factor / (chainFactor items / s)|)).sum
            = (items.map
                (fun i => |i.factor| * (chainFactor items / s)⁻¹)).sum := by
              simp only [habs]
          _ = (items.map (fun i => |i.factor|)).sum *
                (chainFactor items / s)⁻¹ := sum_map_mul_const ..
          _ = s := by
              rw [inv_div, ← chainFactor]
              rw [mul_comm]
              exact div_mul_cancel₀ s hF

/-! ## RepeatedNoise (src/py/noise.py:382-451) -/

/-- Upper bound used for the 32-bit pseudo-random draws
(`u32_max = 0xFFFF_FFFF` in src/py/noise.py:408). -/
def u32Max : Nat := 0xFFFFFFFF

/-- `torch.flip(noise, (dim,))` on a rank-4 tensor; `dim` may be negative
(counted from the end), as produced by `-1 + (rands[2] % (noise_dims + 1))`. -/
def tFlip (dim : Int) (t : Tensor) : Tensor :=
  match ((dim + 4) % 4).toNat with
  | 0 => t.reverse
  | 1 => List.map List.reverse t
  | 2 => List.map (fun a => List.map List.reverse a) t
  | _ => List.map (fun a => List.map (fun b => List.map List.reverse b) a) t

/-- Rotate a list to the right by `k` (the direction `torch.roll` shifts:
element `i` moves to index `i + k` modulo the length). -/
def rotRight {α : Type} (k : Nat) (l : List α) : List α :=
  l.rotate (l.length - k % l.length)

/-- `torch.roll(noise, count, dims=(dim,))` on a rank-4 tensor,
`dim ∈ {0, 1, 2, 3}`. -/
def tRoll (dim count : Nat) (t : Tensor) : Tensor :=
  match dim with
  | 0 => rotRight count t
  | 1 => List.map (rotRight count) t
  | 2 => List.map (fun a => List.map (rotRight count) a) t
  | _ => List.map (fun a => List.map (fun b => List.map (rotRight count) b) a) t

/-- The shape of a rank-4 tensor (assumed rectangular, like a torch tensor). -/
def tShape (t : Tensor) : List Nat :=
  [t.length, (t.getD 0 []).length, ((t.getD 0 []).getD 0 []).length,
   (((t.getD 0 []).getD 0 []).getD 0 []).length]

/-- The permutation step of `RepeatedNoise.make_noise_sampler`'s closure
(src/py/noise.py:436-448), applied when `permute` is true: on `rands[1] % 2`
either (0) flip along dimension `-1 + (rands[2] % (noise_dims + 1))` — except
that when `rands[2] <= u32_max // 10` the tensor is copied unflipped — or
(1) roll along dimension `rands[2] % noise_dims` by
`rands[3] % noise.shape[dim]`.  `noise_dims` is 4 for the rank-4 latents
modelled here, and `permute_options` is the constant 2. -/
def repeatedPermute (rands : Nat × Nat × Nat × Nat) (noise : Tensor) :
    Tensor :=
  match rands with
  | (_, r1, r2, r3) =>
    match r1 % 2 with
    | 0 =>
      if r2 ≤ u32Max / 10 then noise
      else tFlip (-1 + ((r2 : Int) % (4 + 1))) noise
    | _ =>
      let dim := r2 % 4
      tRoll dim (r3 % (tShape noise).getD dim 1) noise

/-- The fields of a `RepeatedNoise` spec read by its bound sampler
(src/py/noise.py:382-388). -/
structure RepeatedNoiseSpec where
  factor : ℚ
  repeat_length : Nat
  normalize : Option Bool
  permute : Bool

/-- Mutable state captured by the closure returned by
`RepeatedNoise.make_noise_sampler`: the cache list `noise_items`, the number
of draws taken so far from the base sampler `ns`, and the number of draws
taken from the dedicated RNG `gen`. -/
structure RepState where
  cache : List Tensor
  baseIdx : Nat
  rngIdx : Nat
  deriving DecidableEq, Repr

/-- One call of the closure returned by `RepeatedNoise.make_noise_sampler`
(src/py/noise.py:403-451).  The base sampler (bound with `normalized=False`)
is modelled as the stream `base` of its successive outputs, and the dedicated
seeded RNG as the stream `rng` of 4-tuples drawn by
`torch.randint(u32_max, (4,))`.  Per call: draw `rands`; if the cache holds
fewer than `repeat_length` entries, generate fresh noise, append it and select
it, else select index `rands[0] % repeat_length`; if `permute` is false,
return a copy of the selected entry immediately (the `return noise.clone()`
early exit, which skips the final `scale_noise`); otherwise apply the
permutation step and return `scale_noise(noise, factor, normalized=normalize)`. -/
def repeatedNoiseSampler (sqrtQ : ℚ → ℚ) (spec : RepeatedNoiseSpec)
    (normalized : Bool) (base : Nat → Tensor)
    (rng : Nat → Nat × Nat × Nat × Nat) (st : RepState) (_s _sn : ℚ) :
    Tensor × RepState :=
  let normalize := spec.normalize.getD normalized
  let rands := rng st.rngIdx
  let sel :=
    if st.cache.length < spec.repeat_length then
      (st.cache ++ [base st.baseIdx], st.baseIdx + 1, st.cache.length)
    else (st.cache, st.baseIdx, rands.1 % spec.repeat_length)
  let noise := sel.1.getD sel.2.2 []
  let st' : RepState := ⟨sel.1, sel.2.1, st.rngIdx + 1⟩
  if spec.permute = false then (noise, st')
  else (scale_noise sqrtQ (repeatedPermute rands noise) spec.factor normalize,
    st')

/-- Counterexample to C3 as stated: with `permute=False`, `factor=2`,
`normalize=False` and `repeat_length=1`, the first call caches the base
tensor `[[[[1]]]]` and returns it as-is — the early `return noise.clone()`
skips the final factor scaling, so the result is not
`scale_noise(entry, 2, normalized=False) = [[[[2]]]]`. -/
theorem repeated_no_final_scaling_cex :
    (repeatedNoiseSampler (fun q => q) ⟨2, 1, some false, false⟩ true
        (fun _ => [[[[1]]]]) (fun _ => (0, 0, 0, 0)) ⟨[], 0, 0⟩ 1 0).1
      = [[[[1]]]] ∧
    scale_noise (fun q => q) [[[[1]]]] 2 false = [[[[2]]]] ∧
    ([[[[1]]]] : Tensor) ≠ [[[[2]]]] := by
  refine ⟨?_, ?_, by decide⟩
  · simp [repeatedNoiseSampler]
  · simp [scale_noise, T4.map]

/-- C3 (amended): with `permute=False`, every call of the bound
`RepeatedNoise` sampler returns a copy of the selected cache entry directly:
the early `return noise.clone()` bypasses the final factor scaling and
normalization entirely (the entry selected is the freshly appended one while
the cache is still filling, and `cache[rands[0] % repeat_length]` once it is
full). -/
theorem repeated_permute_false_returns_unscaled (sqrtQ : ℚ → ℚ)
    (spec : RepeatedNoiseSpec) (normalized : Bool) (base : Nat → Tensor)
    (rng : Nat → Nat × Nat × Nat × Nat) (st : RepState) (s sn : ℚ)
    (hperm : spec.permute = false) :
    (repeatedNoiseSampler sqrtQ spec normalized base rng st s sn).1 =
      (if st.cache.length < spec.repeat_length then
          st.cache ++ [base st.baseIdx]
        else st.cache).getD
        (if st.cache.length < spec.repeat_length then st.cache.length
          else (rng st.rngIdx).1 % spec.repeat_length) [] := by
  by_cases hfill : st.cache.length < spec.repeat_length <;>
    simp [repeatedNoiseSampler, hperm, hfill]

/-- Witness for `repeated_permute_false_returns_unscaled`: a full cache of
one entry and a selecting draw. -/
theorem repeated_permute_false_returns_unscaled_witness :
    (RepeatedNoiseSpec.mk 2 1 (some false) false).permute = false ∧
    (repeatedNoiseSampler (fun q => q) ⟨2, 1, some false, false⟩ true
        (fun _ => [[[[1]]]]) (fun _ => (3, 0, 0, 0)) ⟨[[[[[5]]]]], 0, 0⟩ 1 0).1
      = [[[[5]]]] := by
  constructor
  · rfl
  · rw [repeated_permute_false_returns_unscaled (fun q => q)
      ⟨2, 1, some false, false⟩ true (fun _ => [[[[1]]]])
      (fun _ => (3, 0, 0, 0)) ⟨[[[[[5]]]]], 0, 0⟩ 1 0 rfl]
    decide

/-- Counterexample to C4 as stated: `permute=True`, `repeat_length=1`, empty
cache.  The first call generates `[[[[1, 2]]]]` via the base sampler and
appends it, but the flip/roll permutation step still runs on this first use:
with draw `rands = (0, 0, 429496730, 0)` the branch is a flip
(`429496730 > u32_max // 10 = 429496729`) along dimension
`-1 + (429496730 % 5) = -1`, so the call returns `[[[[2, 1]]]]`
(`factor=1`, unnormalized), not the fresh tensor used directly. -/
theorem repeated_permute_first_use_cex :
    (repeatedNoiseSampler (fun q => q) ⟨1, 1, some false, true⟩ true
        (fun _ => [[[[1, 2]]]]) (fun _ => (0, 0, 429496730, 0))
        ⟨[], 0, 0⟩ 1 0).1 = [[[[2, 1]]]] ∧
    (repeatedNoiseSampler (fun q => q) ⟨1, 1, some false, true⟩ true
        (fun _ => [[[[1, 2]]]]) (fun _ => (0, 0, 429496730, 0))
        ⟨[], 0, 0⟩ 1 0).2.cache = [[[[[1, 2]]]]] ∧
    ([[[[2, 1]]]] : Tensor) ≠ [[[[1, 2]]]] := by
  refine ⟨?_, ?_, by decide⟩
  · simp [repeatedNoiseSampler, repeatedPermute, u32Max, tFlip, scale_noise,
      T4.map]
  · simp [repeatedNoiseSampler]

/-- C4 (amended): while the cache holds fewer than `repeat_length` entries,
a call with `permute=True` generates a fresh noise tensor via the base
sampler and appends it to the cache — but the flip/roll permutation step is
still applied to it on that first use, exactly as for a cache hit, before
the final factor scaling. -/
theorem repeated_fresh_entry_still_permuted (sqrtQ : ℚ → ℚ)
    (spec : RepeatedNoiseSpec) (normalized : Bool) (base : Nat → Tensor)
    (rng : Nat → Nat × Nat × Nat × Nat) (st : RepState) (s sn : ℚ)
    (hperm : spec.permute = true)
    (hfill : st.cache.length < spec.repeat_length) :
    (repeatedNoiseSampler sqrtQ spec normalized base rng st s sn).2.cache =
      st.cache ++ [base st.baseIdx] ∧
    (repeatedNoiseSampler sqrtQ spec normalized base rng st s sn).1 =
      scale_noise sqrtQ (repeatedPermute (rng st.rngIdx) (base st.baseIdx))
        spec.factor (spec.normalize.getD normalized) := by
  constructor
  · simp [repeatedNoiseSampler, hperm, hfill]
  · simp [repeatedNoiseSampler, hperm, hfill]

/-- Witness for `repeated_fresh_entry_still_permuted` at a concrete spec,
state and draw. -/
theorem repeated_fresh_entry_still_permuted_witness :
    (RepeatedNoiseSpec.mk 1 1 (some false) true).permute = true ∧
    (0 : Nat) < 1 ∧
    (repeatedNoiseSampler (fun q => q) ⟨1, 1, some false, true⟩ true
        (fun _ => [[[[1, 2]]]]) (fun _ => (0, 0, 429496730, 0))
        ⟨[], 0, 0⟩ 1 0).1 =
      scale_noise (fun q => q)
        (repeatedPermute (0, 0, 429496730, 0) [[[[1, 2]]]]) 1 false := by
  refine ⟨rfl, by decide, ?_⟩
  exact (repeated_fresh_entry_still_permuted (fun q => q)
    ⟨1, 1, some false, true⟩ true (fun _ => [[[[1, 2]]]])
    (fun _ => (0, 0, 429496730, 0)) ⟨[], 0, 0⟩ 1 0 rfl (by decide)).2

/-! ## Guidance mixin (src/py/sonar.py:308-364) and GuidedNoise
(src/py/noise.py:256-328) -/

/-- `GuidanceType` (src/py/sonar.py:23-25). -/
inductive GuidanceType where
  | LINEAR
  | EULER
  deriving DecidableEq, Repr

/-- The external derivative utility `comfy.k_diffusion.sampling.to_d`.
Modelled from the spec (section 6): `to_d(sample, sigma, denoised)` is
`(sample - denoised) / sigma`. -/
def toD (sample : Tensor) (sigma : ℚ) (denoised : Tensor) : Tensor :=
  T4.zip (fun a b => (a - b) / sigma) sample denoised

/-- `SonarGuidanceMixin.guidance_linear` (src/py/sonar.py:357-364), as the
instance method of a state with reference latent `ref_latent` and factor
`guidance_factor`: per batch element, `avg_t`/`std_t` are the mean and
(unbiased) standard deviation of `x` over dims `[1, 2, 3]` (keepdim), the
shift is `ref_latent * std_t + avg_t`, and the result is
`(1 - guidance_factor) * x + guidance_factor * ref_img_shift`. -/
def guidance_linear (sqrtQ : ℚ → ℚ) (ref_latent : Tensor)
    (guidance_factor : ℚ) (x : Tensor) : Tensor :=
  List.zipWith (fun xb rb =>
    let avg_t := listMean (T3.flat xb)
    let std_t := sqrtQ (listVar (T3.flat xb))
    T3.zip (fun xv rv =>
      (1 - guidance_factor) * xv + guidance_factor * (rv * std_t + avg_t))
      xb rb) x ref_latent

/-- `SonarGuidanceMixin.guidance_euler` (src/py/sonar.py:342-355): the shift
uses the `denoised` estimate's per-batch statistics, is converted to a
derivative via `to_d`, and applied as an Euler step with
`dt = (sigma_next - sigma) * guidance_factor`. -/
def guidance_euler (sqrtQ : ℚ → ℚ) (ref_latent : Tensor)
    (guidance_factor : ℚ) (sigmas : List ℚ) (step_index : Nat)
    (x denoised : Tensor) : Tensor :=
  let ref_img_shift := List.zipWith (fun db rb =>
    let avg_t := listMean (T3.flat db)
    let std_t := sqrtQ (listVar (T3.flat db))
    T3.map (fun rv => rv * std_t + avg_t) rb) denoised ref_latent
  let sigma := sigmas.getD step_index 0
  let sigma_next := sigmas.getD (step_index + 1) 0
  let d := toD x sigma ref_img_shift
  T4.zip (fun a b => a + b * ((sigma_next - sigma) * guidance_factor)) x d

/-- The guidance state held by `SonarGuidanceMixin` after construction
(src/py/sonar.py:308-317), fields in assignment order. -/
structure GuidanceState where
  ref_latent : Option Tensor
  guidance_factor : ℚ
  guidance_type : Option GuidanceType

/-- The latent dict passed as `ref_latent` to `SonarGuidanceMixin.__init__`:
a mapping with a `samples` entry (which itself may hold a tensor or `None`). -/
structure LatentDict where
  samples : Option Tensor

/-- `SonarGuidanceMixin.prepare_ref_latent` (src/py/sonar.py:319-325):
`None` passes through; otherwise the latent is normalized per batch element
and channel over the spatial dims `[2, 3]` (keepdim):
`(latent - mean) / std`. -/
def prepare_ref_latent (sqrtQ : ℚ → ℚ) : Option Tensor → Option Tensor
  | none => none
  | some latent => some
      (latent.map (fun b => List.map (fun hw =>
        let avg_s := listMean hw.flatten
        let std_s := sqrtQ (listVar hw.flatten)
        List.map (fun row => List.map (fun v => (v - avg_s) / std_s) row) hw)
        b))

/-- `SonarGuidanceMixin.__init__` (src/py/sonar.py:309-317).  Its first
statement is `self.ref_latent = self.prepare_ref_latent(ref_latent["samples"])`:
when the `ref_latent` argument is `None` (the default of `guidance_latent` in
`SonarNaive.sampler` and `SonarNaive.__init__`), subscripting `None` raises
`TypeError` before anything else happens. -/
def sonarGuidanceInit (sqrtQ : ℚ → ℚ) (guidance_type : Option GuidanceType)
    (ref_latent : Option LatentDict) (guidance_factor : ℚ) :
    Except PyErr GuidanceState :=
  match ref_latent with
  | none => .error .typeError
  | some d =>
      .ok ⟨prepare_ref_latent sqrtQ d.samples, guidance_factor, guidance_type⟩

/-- `SonarGuidanceMixin.guidance_step` (src/py/sonar.py:327-340): the input
sample is returned unchanged when the reference latent is absent, the
guidance type is unset, or the guidance factor is zero; otherwise the linear
or Euler transform runs.  (The final `raise ValueError` for an unknown
guidance type is unreachable with the two-member enum; the device move on
`ref_latent` is a no-op here.) -/
def guidance_step (sqrtQ : ℚ → ℚ) (st : GuidanceState) (sigmas : List ℚ)
    (step_index : Nat) (x denoised : Tensor) : Tensor :=
  if st.ref_latent = none ∨ st.guidance_type = none ∨ st.guidance_factor = 0
  then x
  else
    match st.guidance_type, st.ref_latent with
    | some .LINEAR, some ref => guidance_linear sqrtQ ref st.guidance_factor x
    | some .EULER, some ref =>
        guidance_euler sqrtQ ref st.guidance_factor sigmas step_index x
          denoised
    | _, _ => x

/-- C6: the guidance step is the identity on its input whenever the
reference latent is absent, the guidance type is unset, or the guidance
factor is zero — but the claim's "including when the sampler is constructed
with no reference latent supplied" clause fails: `SonarGuidanceMixin.__init__`
with `ref_latent=None` (the default of `guidance_latent`) raises `TypeError`
by subscripting `None`, so such a sampler is never constructed.  (The
absent-reference state is still reachable via a latent dict whose `samples`
entry is `None`, which `prepare_ref_latent` passes through.) -/
theorem guidance_step_noop_and_none_init_type_error :
    (∀ (sqrtQ : ℚ → ℚ) (st : GuidanceState) (sigmas : List ℚ)
      (step_index : Nat) (x denoised : Tensor),
      st.ref_latent = none ∨ st.guidance_type = none ∨
        st.guidance_factor = 0 →
      guidance_step sqrtQ st sigmas step_index x denoised = x) ∧
    sonarGuidanceInit (fun q => q) none none 0 = .error .typeError := by
  constructor
  · intro sqrtQ st sigmas step_index x denoised h
    simp [guidance_step, h]
  · rfl

/-- Witness for `guidance_step_noop_and_none_init_type_error`: an absent
reference latent (obtained from a latent dict with `samples=None`) with a
nonzero factor and the linear guidance type set. -/
theorem guidance_step_noop_witness :
    ((GuidanceState.mk none (1/2) (some .LINEAR)).ref_latent = none ∨
      (GuidanceState.mk none (1/2) (some .LINEAR)).guidance_type = none ∨
      (GuidanceState.mk none (1/2) (some .LINEAR)).guidance_factor = 0) ∧
    guidance_step (fun q => q) ⟨none, 1/2, some .LINEAR⟩ [1, 1/2, 0] 0
      [[[[3]]]] [[[[0]]]] = [[[[3]]]] := by
  refine ⟨Or.inl rfl, ?_⟩
  exact guidance_step_noop_and_none_init_type_error.1 (fun q => q)
    ⟨none, 1/2, some .LINEAR⟩ [1, 1/2, 0] 0 [[[[3]]]] [[[[0]]]]
    (Or.inl rfl)

/-- Parameter list of `SonarGuidanceMixin.guidance_linear`
(src/py/sonar.py:357-360): `(self, x)` — two parameters. -/
def guidanceLinearParams : List String := ["self", "x"]

/-- The fields of a `GuidedNoise` spec read by its bound sampler
(src/py/noise.py:256-273). -/
structure GuidedNoiseSpec where
  factor : ℚ
  guidance_factor : ℚ
  ref_latent : Tensor
  normalize : Option Bool
  normalize_ref : Bool

/-- The closure built by the `"linear"` case of
`GuidedNoise.make_noise_sampler` (src/py/noise.py:290-311).  At bind time the
base sampler is bound with `normalized=False` (modelled by `ns`) and the
reference latent is passed through `scale_noise(..., normalized=normalize_ref)`.
Per call, the freshly drawn noise goes through
`scale_noise(ns(s, sn), normalized=normalize)` and is then passed — together
with `ref_latent` and `guidance_factor`, three positional arguments in all —
to the unbound method `SonarGuidanceMixin.guidance_linear`, whose parameter
list is `(self, x)`; binding three positional arguments to two parameters
raises `TypeError`.  The `.ok` branch is unreachable; it records the
computation the spec intends for that call (sections 4.2 and 4.5: the current
noise as the subject, the reference latent as the target, then
normalize/scale by `factor`). -/
def guidedNoiseSamplerLinear (sqrtQ : ℚ → ℚ) (spec : GuidedNoiseSpec)
    (normalized : Bool) (ns : ℚ → ℚ → Tensor) (s sn : ℚ) :
    Except PyErr Tensor :=
  let normalize := spec.normalize.getD normalized
  let ref_latent := scale_noise sqrtQ spec.ref_latent 1 spec.normalize_ref
  let n := scale_noise sqrtQ (ns s sn) 1 normalize
  match bindCall guidanceLinearParams 3 [] with
  | .error e => .error e
  | .ok _ => .ok (scale_noise sqrtQ
      (guidance_linear sqrtQ ref_latent spec.guidance_factor n)
      spec.factor normalize)

/-- C2: the sampler returned by `GuidedNoise.make_noise_sampler` for method
`"linear"` never returns the guided blend the claim describes: every call
raises `TypeError`, because `SonarGuidanceMixin.guidance_linear(noise,
ref_latent, guidance_factor)` passes three positional arguments to a
two-parameter instance method. -/
theorem guided_linear_sampler_type_error (sqrtQ : ℚ → ℚ)
    (spec : GuidedNoiseSpec) (normalized : Bool) (ns : ℚ → ℚ → Tensor)
    (s sn : ℚ) :
    guidedNoiseSamplerLinear sqrtQ spec normalized ns s sn =
      .error .typeError := by
  simp [guidedNoiseSamplerLinear, bindCall, guidanceLinearParams]

/-! ## Momentum integrator (src/py/sonar.py:28-73) -/

/-- `HistoryType` (src/py/sonar.py:17-20). -/
inductive HistoryType where
  | ZERO
  | RAND
  | SAMPLE
  deriving DecidableEq, Repr

/-- The value of `self.history_d`: `None` before lazy initialization, the
Python int `0` (set by `init_hist_d` for `HistoryType.ZERO`), or a tensor. -/
inductive HistD where
  | noneH
  | intH (n : Int)
  | tensH (t : Tensor)
  deriving DecidableEq, Repr

/-- `SonarBase.init_hist_d` (src/py/sonar.py:42-53): a no-op once the history
is set; otherwise the scalar `0` for `ZERO`, the sample itself for `SAMPLE`,
or `torch.randn_like(x)` for `RAND` (the external standard-normal draw is the
oracle `randn`). -/
def init_hist_d (randn : Tensor → Tensor) (history_type : HistoryType)
    (hd : HistD) (x : Tensor) : HistD :=
  match hd with
  | .noneH =>
    match history_type with
    | .ZERO => .intH 0
    | .SAMPLE => .tensH x
    | .RAND => .tensH (randn x)
  | h => h

/-- `SonarBase.momentum_step` (src/py/sonar.py:55-73).  With
`momentum == 1.0` it returns `x + d * dt` at once, leaving the history
untouched.  Otherwise `p = (1 - momentum) * direction`,
`momentum_d = (1 - p) * d + p * history` (scalar broadcast when the history
is the Python int), the result is `x + momentum_d * dt`, and the stored
history becomes `momentum_d` when the history was the int `0`, else
`(1 - q) * history + q * momentum_d` with `q = 1 - momentum_hist`.
An uninitialized (`None`) history would make `p * hd` a `TypeError`. -/
def momentum_step (momentum momentum_hist direction : ℚ) (hd : HistD)
    (x d : Tensor) (dt : ℚ) : Except PyErr (Tensor × HistD) :=
  if momentum = 1 then .ok (T4.zip (fun a b => a + b * dt) x d, hd)
  else
    let p := (1 - momentum) * direction
    match hd with
    | .noneH => .error .typeError
    | .intH n =>
      let momentum_d := T4.map (fun v => (1 - p) * v + p * (n : ℚ)) d
      let x' := T4.zip (fun a b => a + b * dt) x momentum_d
      let q := 1 - momentum_hist
      if n = 0 then .ok (x', .tensH momentum_d)
      else .ok (x',
        .tensH (T4.map (fun v => (1 - q) * (n : ℚ) + q * v) momentum_d))
    | .tensH t =>
      let momentum_d := T4.zip (fun a b => (1 - p) * a + p * b) d t
      let x' := T4.zip (fun a b => a + b * dt) x momentum_d
      let q := 1 - momentum_hist
      .ok (x', .tensH (T4.zip (fun a b => (1 - q) * a + q * b) t momentum_d))

/-- Modelled from the spec: the plain Euler update `x + d * dt` that the
momentum integrator is claimed to degenerate to at `momentum == 1.0`. -/
def plainEulerUpdate (x d : Tensor) (dt : ℚ) : Tensor :=
  T4.zip (fun a b => a + b * dt) x d

/-- C9: with `momentum == 1.0`, `momentum_step` returns exactly the plain
Euler update `x + d * dt` and leaves the stored history untouched, for every
`momentum_hist`, `direction` and history state. -/
theorem momentum_one_is_plain_euler (momentum momentum_hist direction : ℚ)
    (hd : HistD) (x d : Tensor) (dt : ℚ) (hm : momentum = 1) :
    momentum_step momentum momentum_hist direction hd x d dt =
      .ok (plainEulerUpdate x d dt, hd) := by
  simp [momentum_step, hm, plainEulerUpdate]

/-- Witness for `momentum_one_is_plain_euler` at a concrete input with an
uninitialized history. -/
theorem momentum_one_is_plain_euler_witness :
    (1 : ℚ) = 1 ∧
    momentum_step 1 (3/4) 1 .noneH [[[[1]]]] [[[[2]]]] 3 =
      .ok (plainEulerUpdate [[[[1]]]] [[[[2]]]] 3, .noneH) :=
  ⟨rfl, momentum_one_is_plain_euler 1 (3/4) 1 .noneH [[[[1]]]] [[[[2]]]] 3
    rfl⟩

/-- C8: with `momentum != 1.0`, writing `p = (1 - momentum) * direction` and
`momentum_d = (1 - p) * d + p * history`, `momentum_step` returns
`x + momentum_d * dt`; the stored history becomes `momentum_d` when the
prior history was the uninitialized scalar `0`, and otherwise the
exponential moving average
`(1 - (1 - momentum_hist)) * history + (1 - momentum_hist) * momentum_d`. -/
theorem momentum_step_formulas (momentum momentum_hist direction : ℚ)
    (x d t : Tensor) (dt : ℚ) (hm : momentum ≠ 1) :
    momentum_step momentum momentum_hist direction (.intH 0) x d dt =
      .ok (T4.zip (fun a b => a + b * dt) x
          (T4.map (fun v => (1 - (1 - momentum) * direction) * v +
            (1 - momentum) * direction * 0) d),
        .tensH (T4.map (fun v => (1 - (1 - momentum) * direction) * v +
          (1 - momentum) * direction * 0) d)) ∧
    momentum_step momentum momentum_hist direction (.tensH t) x d dt =
      .ok (T4.zip (fun a b => a + b * dt) x
          (T4.zip (fun a b => (1 - (1 - momentum) * direction) * a +
            (1 - momentum) * direction * b) d t),
        .tensH (T4.zip (fun a b =>
          (1 - (1 - momentum_hist)) * a + (1 - momentum_hist) * b) t
          (T4.zip (fun a b => (1 - (1 - momentum) * direction) * a +
            (1 - momentum) * direction * b) d t))) := by
  constructor <;> simp [momentum_step, hm]

/-- Witness for `momentum_step_formulas` at concrete scalars and tensors. -/
theorem momentum_step_formulas_witness :
    (2 : ℚ) ≠ 1 ∧
    momentum_step 2 (3/4) 1 (.intH 0) [[[[1]]]] [[[[2]]]] 3 =
      .ok (T4.zip (fun a b => a + b * 3) [[[[1]]]]
          (T4.map (fun v => (1 - (1 - 2) * 1) * v + (1 - 2) * 1 * 0)
            [[[[2]]]]),
        .tensH (T4.map (fun v => (1 - (1 - 2) * 1) * v + (1 - 2) * 1 * 0)
          [[[[2]]]])) :=
  ⟨by norm_num,
    (momentum_step_formulas 2 (3/4) 1 [[[[1]]]] [[[[2]]]] [[[[0]]]] 3
      (by norm_num)).1⟩

/-! ## SonarEuler (src/py/sonar.py:93-193) -/

/-- The float constant `2**0.5 - 1` used as the churn cap
(src/py/sonar.py:119): `2**0.5` is embedded as the exact rational value of
its IEEE-754 double representation, `6369051672525773 * 2 ^ (-52)`. -/
def sqrt2m1 : ℚ := 6369051672525773 / 4503599627370496 - 1

/-- Configuration of a `SonarEuler` run: the churn parameters
(src/py/sonar.py:93-107, defaults `s_churn=0`, `s_tmin=0`, `s_tmax=inf`,
`s_noise=1`; the unbounded default `s_tmax = float("inf")` is the top
element of `WithTop ℚ`) and the `SonarBase` momentum parameters
(src/py/sonar.py:28-40, defaults `momentum=0.95`, `momentum_hist=0.75`,
`direction=1`, history type `ZERO`). -/
structure SonarEulerCfg where
  s_churn : ℚ
  s_tmin : ℚ
  s_tmax : WithTop ℚ
  s_noise : ℚ
  momentum : ℚ
  momentum_hist : ℚ
  direction : ℚ
  history_type : HistoryType

/-- `SonarEuler.step` (src/py/sonar.py:109-141).  After lazily initializing
the history, `gamma` is `min(s_churn / (len(sigmas) - 1), 2**0.5 - 1)` when
`s_tmin <= sigma <= s_tmax` and `0.0` otherwise (with `len(sigmas) == 1` the
division raises `ZeroDivisionError`), and `sigma_hat = sigma * (gamma + 1)`.
When `gamma > 0` the code executes `noise = torch.randn_like(sample.shape)`,
which raises `TypeError`: `randn_like` requires a tensor and is given a
`torch.Size`.  Otherwise the denoiser is invoked at `sigma_hat` (`model`
abstracts `self.model(sample, sigma_hat * s_in, **extra_args)`), the
derivative is `to_d(sample, sigma, denoised)`, `dt` is
`sigmas[i + 1] - sigma_hat`, and the momentum step produces the new sample.
Returns `(new_sample, new_history, sigma, sigma_hat, denoised)`. -/
def sonarEulerStep (cfg : SonarEulerCfg) (randn : Tensor → Tensor)
    (model : Tensor → ℚ → Tensor) (sigmas : List ℚ) (step_index : Nat)
    (sample : Tensor) (hd : HistD) :
    Except PyErr (Tensor × HistD × ℚ × ℚ × Tensor) :=
  let hd := init_hist_d randn cfg.history_type hd sample
  match sigmas.get? step_index with
  | none => .error .indexError
  | some sigma =>
    let gammaE : Except PyErr ℚ :=
      if cfg.s_tmin ≤ sigma ∧ (sigma : WithTop ℚ) ≤ cfg.s_tmax then
        if sigmas.length ≤ 1 then .error .zeroDivisionError
        else .ok (min (cfg.s_churn / ((sigmas.length : ℚ) - 1)) sqrt2m1)
      else .ok 0
    match gammaE with
    | .error e => .error e
    | .ok gamma =>
      let sigma_hat := sigma * (gamma + 1)
      if 0 < gamma then .error .typeError
      else
        let denoised := model sample sigma_hat
        let derivative := toD sample sigma denoised
        match sigmas.get? (step_index + 1) with
        | none => .error .indexError
        | some sigma_next =>
          let dt := sigma_next - sigma_hat
          match momentum_step cfg.momentum cfg.momentum_hist cfg.direction hd
              sample derivative dt with
          | .error e => .error e
          | .ok (x, hd) => .ok (x, hd, sigma, sigma_hat, denoised)

/-- The loop body of `SonarEuler.sampler` (src/py/sonar.py:178-192), running
the listed step indices in order and threading the sample and history
(the progress callback is `None` here). -/
def sonarEulerRun (cfg : SonarEulerCfg) (randn : Tensor → Tensor)
    (model : Tensor → ℚ → Tensor) (sigmas : List ℚ) :
    List Nat → Tensor → HistD → Except PyErr (Tensor × HistD)
  | [], x, hd => .ok (x, hd)
  | i :: rest, x, hd =>
    match sonarEulerStep cfg randn model sigmas i x hd with
    | .error e => .error e
    | .ok (x', hd', _, _, _) => sonarEulerRun cfg randn model sigmas rest x' hd'

/-- `SonarEuler.sampler` (src/py/sonar.py:143-193): constructs the sampler
state (history starts as `None`) and runs step indices
`0 .. len(sigmas) - 2`, returning the final sample. -/
def sonarEulerSampler (cfg : SonarEulerCfg) (randn : Tensor → Tensor)
    (model : Tensor → ℚ → Tensor) (sigmas : List ℚ) (x : Tensor) :
    Except PyErr Tensor :=
  match sonarEulerRun cfg randn model sigmas (List.range (sigmas.length - 1))
      x .noneH with
  | .error e => .error e
  | .ok (x', _) => .ok x'

/-- C5: whenever `s_churn > 0` and `s_tmin <= sigma <= s_tmax` (with a
schedule of at least two sigmas), `gamma = min(s_churn / (len(sigmas) - 1),
2**0.5 - 1)` is positive, and the churn branch of `SonarEuler.step` raises
`TypeError` at `torch.randn_like(sample.shape)` — `randn_like` is given a
`torch.Size` instead of a tensor — so no noise is ever added and the
denoiser is never invoked. -/
theorem sonar_euler_churn_step_type_error (cfg : SonarEulerCfg)
    (randn : Tensor → Tensor) (model : Tensor → ℚ → Tensor)
    (sigmas : List ℚ) (step_index : Nat) (sample : Tensor) (hd : HistD)
    (sigma : ℚ) (hget : sigmas.get? step_index = some sigma)
    (hrange : cfg.s_tmin ≤ sigma ∧ (sigma : WithTop ℚ) ≤ cfg.s_tmax)
    (hchurn : 0 < cfg.s_churn) (hlen : 2 ≤ sigmas.length) :
    sonarEulerStep cfg randn model sigmas step_index sample hd =
      .error .typeError := by
  have hlen1 : ¬ sigmas.length ≤ 1 := by omega
  have hden : (0 : ℚ) < (sigmas.length : ℚ) - 1 := by
    have : (2 : ℚ) ≤ (sigmas.length : ℚ) := by exact_mod_cast hlen
    linarith
  have hgamma : 0 < min (cfg.s_churn / ((sigmas.length : ℚ) - 1)) sqrt2m1 := by
    refine lt_min (div_pos hchurn hden) ?_
    norm_num [sqrt2m1]
  obtain ⟨hr1, hr2⟩ := hrange
  simp only [List.get?_eq_getElem?] at hget
  simp [sonarEulerStep, hget, hr1, hr2, hlen1, hgamma]

/-- Witness for `sonar_euler_churn_step_type_error`: `s_churn = 1` with the
default churn window on the schedule `[1.0, 0.5, 0.0]` at step 0. -/
theorem sonar_euler_churn_step_type_error_witness :
    ([1, 1/2, 0] : List ℚ).get? 0 = some 1 ∧
    ((0 : ℚ) ≤ 1 ∧ ((1 : ℚ) : WithTop ℚ) ≤ ⊤) ∧
    (0 : ℚ) < 1 ∧ 2 ≤ ([1, 1/2, 0] : List ℚ).length ∧
    sonarEulerStep ⟨1, 0, ⊤, 1, 95/100, 3/4, 1, .ZERO⟩ (fun t => t)
      (fun t _ => t) [1, 1/2, 0] 0 [[[[1]]]] .noneH = .error .typeError := by
  refine ⟨rfl, ⟨by norm_num, le_top⟩, by norm_num, by decide, ?_⟩
  exact sonar_euler_churn_step_type_error ⟨1, 0, ⊤, 1, 95/100, 3/4, 1, .ZERO⟩
    (fun t => t) (fun t _ => t) [1, 1/2, 0] 0 [[[[1]]]] .noneH 1 rfl
    ⟨by norm_num, le_top⟩ (by norm_num) (by decide)

/-- With `s_churn == 0` and `momentum == 1.0`, a `SonarEuler` step is the
plain Euler step: `gamma = 0`, `sigma_hat = sigma`, the denoiser runs at
`sigma`, and the result is `sample + to_d(sample, sigma, denoised) * dt`
with `dt = sigma_next - sigma`. -/
theorem sonar_euler_step_no_churn (cfg : SonarEulerCfg)
    (randn : Tensor → Tensor) (model : Tensor → ℚ → Tensor)
    (sigmas : List ℚ) (i : Nat) (x : Tensor) (hd : HistD) (σ σn : ℚ)
    (hσ : sigmas.get? i = some σ) (hσn : sigmas.get? (i + 1) = some σn)
    (hchurn : cfg.s_churn = 0) (hmom : cfg.momentum = 1) :
    sonarEulerStep cfg randn model sigmas i x hd =
      .ok (T4.zip (fun a b => a + b * (σn - σ)) x (toD x σ (model x σ)),
        init_hist_d randn cfg.history_type hd x, σ, σ, model x σ) := by
  have hlt : i + 1 < sigmas.length := by
    obtain ⟨h, _⟩ := List.get?_eq_some.mp hσn
    exact h
  have hlen1 : ¬ sigmas.length ≤ 1 := by omega
  have hmin : min (cfg.s_churn / ((sigmas.length : ℚ) - 1)) sqrt2m1 = 0 := by
    rw [hchurn, zero_div]
    exact min_eq_left (by norm_num [sqrt2m1])
  simp only [List.get?_eq_getElem?] at hσ hσn
  by_cases hcond : cfg.s_tmin ≤ σ ∧ (σ : WithTop ℚ) ≤ cfg.s_tmax
  · simp [sonarEulerStep, hσ, hσn, hcond, hlen1, hmin, momentum_step, hmom]
  · simp [sonarEulerStep, hσ, hσn, hcond, momentum_step, hmom]

/-- C7: on the schedule `sigmas = [1.0, 0.5, 0.0]` with `momentum = 1.0`,
`s_churn = 0` and a denoiser returning a zero tensor for every input,
`SonarEuler` produces `x1 = 0.5 * x0` after step 0 (derivative `d0 = x0`,
`dt0 = -0.5`) and the zero tensor as the final output of the sampler after
step 1 (`d1 = 2 * x1`, `dt1 = -0.5`). -/
theorem sonar_euler_end_to_end (x0 : Tensor) (randn : Tensor → Tensor) :
    sonarEulerStep ⟨0, 0, ⊤, 1, 1, 3/4, 1, .ZERO⟩ randn
        (fun t _ => T4.map (fun _ => 0) t) [1, 1/2, 0] 0 x0 .noneH =
      .ok (T4.map (fun v => 1/2 * v) x0, .intH 0, 1, 1,
        T4.map (fun _ => 0) x0) ∧
    sonarEulerSampler ⟨0, 0, ⊤, 1, 1, 3/4, 1, .ZERO⟩ randn
        (fun t _ => T4.map (fun _ => 0) t) [1, 1/2, 0] x0 =
      .ok (T4.map (fun _ => 0) x0) := by
  have hstep0 : sonarEulerStep ⟨0, 0, ⊤, 1, 1, 3/4, 1, .ZERO⟩ randn
      (fun t _ => T4.map (fun _ => 0) t) [1, 1/2, 0] 0 x0 .noneH =
      .ok (T4.map (fun v => 1/2 * v) x0, .intH 0, 1, 1,
        T4.map (fun _ => 0) x0) := by
    rw [sonar_euler_step_no_churn _ randn _ [1, 1/2, 0] 0 x0 .noneH 1 (1/2)
      rfl rfl rfl rfl]
    simp only [toD, t4_zip_left_map, init_hist_d]
    refine congrArg Except.ok ?_
    refine Prod.ext ?_ rfl
    exact t4_map_congr (fun v => by ring) x0
  have hstep1 : sonarEulerStep ⟨0, 0, ⊤, 1, 1, 3/4, 1, .ZERO⟩ randn
      (fun t _ => T4.map (fun _ => 0) t) [1, 1/2, 0] 1
      (T4.map (fun v => 1/2 * v) x0) (.intH 0) =
      .ok (T4.map (fun _ => 0) x0, .intH 0, 1/2, 1/2,
        T4.map (fun _ => 0) x0) := by
    rw [sonar_euler_step_no_churn _ randn _ [1, 1/2, 0] 1 _ (.intH 0) (1/2) 0
      rfl rfl rfl rfl]
    simp only [toD, t4_map_map, t4_zip_map_same, init_hist_d]
    refine congrArg Except.ok ?_
    refine Prod.ext ?_ (Prod.ext rfl (Prod.ext rfl (Prod.ext rfl ?_)))
    · exact t4_map_congr (fun v => by ring) x0
    · exact t4_map_congr (fun _ => rfl) x0
  refine ⟨hstep0, ?_⟩
  have hrange : List.range (([1, 1/2, 0] : List ℚ).length - 1) = [0, 1] := by
    decide
  simp only [sonarEulerSampler, hrange, sonarEulerRun, hstep0, hstep1]

/-- A concrete two-item chain used to witness `chain_rescaled_pos_target`. -/
def twoItems : List CustomNoiseItem := [⟨1⟩, ⟨-2⟩]

/-- Witness for `chain_rescaled_pos_target` on a chain with factors
`[1, -2]` (chain factor `3`) rescaled to the target `3`. -/
theorem chain_rescaled_pos_target_witness :
    (0 : ℚ) < 3 ∧
    (chainFactor twoItems = (twoItems.map (fun i => |i.factor|)).sum ∧
      (chainFactor twoItems = 0 → rescaled twoItems 3 = .ok twoItems) ∧
      (chainFactor twoItems ≠ 0 →
        ∃ out, rescaled twoItems 3 = .ok out ∧ chainFactor out = 3 ∧
          out = twoItems.map
            (fun i => ⟨i.factor / (chainFactor twoItems / 3)⟩))) :=
  ⟨by norm_num, chain_rescaled_pos_target twoItems 3 (by norm_num)⟩
